import Mathlib

/-!
Verification development for `src/primitives/context/create_context.rs` of the
`dioxus-primitives` repository: a shallow embedding of the context-propagation
primitives, followed by theorems about them.

Modelling conventions, stated once:

* The host framework's ambient context store (the `use_context` /
  `use_context_provider` operations) is not part of this repository.
  Modelled from the spec: the host offers "an ambient read value of type T
  from nearest enclosing scope operation" and "an ambient inject value of
  type T for descendants operation".  The ambient slot for the bound value
  type `T` is threaded as an explicit `Option T` argument to the consumer:
  `some v` when an enclosing provider injected `v`, `none` otherwise.
* Hook state (`use_signal`, `use_memo`) is likewise modelled from the spec:
  a signal keeps its stored value across re-renders (its initialising
  closure runs only on the first render), and the memoization primitive is
  keyed by value equality, signalling downstream recomputation only when
  the memoized value changes under `PartialEq`.
* `Rc<dyn Any>` is modelled by the inductive `DynAny`; the unit placeholder
  `Rc::new(())` is `DynAny.unitVal`.
* Rust's `HashMap<String, _>` is modelled as an association list whose
  insert overwrites the value at an existing key; the map's unspecified
  iteration order is represented deterministically by insertion order.
* A Rust `panic!` in the consumer is modelled as `Except.error` carrying the
  formatted diagnostic message.
* The registry's shared `Rc<RefCell<Vec<Option<Rc<dyn Any>>>>>` is modelled
  by explicit state passing: `create` returns the updated registry, and the
  scope hook receives the registry contents at hook-invocation time as an
  explicit snapshot argument.
-/

namespace DioxusPrimitives

/-- Renderable element of the host UI framework, kept opaque: the code never
inspects children, it only passes them through. -/
structure Element where
  id : Nat
deriving DecidableEq

/-- Hook state of the basic `Provider` component: the signal created by
`use_signal` and the memoized value created by `use_memo`. -/
structure ProviderHookState (T : Type) where
  context_signal : T
  memoized_value : T

/-- Result of one render of the basic `Provider` component: the hook state
after the render, the value injected into the ambient context store by
`use_context_provider`, the rendered output, and whether the memo signalled
a downstream recomputation during this render. -/
structure ProviderRender (T : Type) where
  state : ProviderHookState T
  provided : T
  rendered : Element
  recomputed : Bool

/-- First render of the `Provider` component defined inside `create_context`:
the signal is initialised with the props value, the memo derives its value
from the signal, the memoized value is injected into the ambient store and
the children are rendered unchanged. -/
def Provider.renderFirst {T : Type} (value : T) (children : Element) :
    ProviderRender T :=
  let context_signal := value
  let memoized_value := context_signal
  { state := ⟨context_signal, memoized_value⟩,
    provided := memoized_value,
    rendered := children,
    recomputed := true }

/-- Re-render of a mounted `Provider` component with a new props value.
Modelled from the spec: `use_signal` keeps its stored value across
re-renders, so the new props value does not reach the signal; the memo
re-reads the signal and signals downstream recomputation only when the
memoized value changes under value equality. -/
def Provider.rerender {T : Type} [DecidableEq T] (st : ProviderHookState T)
    (_value : T) (children : Element) : ProviderRender T :=
  let context_signal := st.context_signal
  let memoized_value := context_signal
  { state := ⟨context_signal, memoized_value⟩,
    provided := memoized_value,
    rendered := children,
    recomputed := decide (memoized_value ≠ st.memoized_value) }

/-- `create_context`: given a root component name and an optional default,
returns the provider function and the consumer hook.  The provider function
mounts the `Provider` component (its first render).  The consumer hook takes
the per-call consumer name and the ambient context slot read by
`use_context`, and either returns the context value, falls back to the
registered default, or fails with the formatted diagnostic message. -/
def create_context (T : Type) (root_component_name : String)
    (default_context : Option T) :
    (T → Element → ProviderRender T) × (String → Option T → Except String T) :=
  (fun value children => Provider.renderFirst value children,
   fun consumer_name context =>
     match context with
     | some ctx => Except.ok ctx
     | none =>
       match default_context with
       | some d => Except.ok d
       | none =>
         Except.error ("`" ++ consumer_name ++ "` must be used within `"
           ++ root_component_name ++ "`"))

/-- Erased dynamic value standing for `Rc<dyn Any>`.  `unitVal` stands for
the unit placeholder; the other constructors embed the concrete payload
types used in this development. -/
inductive DynAny where
  | unitVal : DynAny
  | natVal : Nat → DynAny
  | strVal : String → DynAny
deriving DecidableEq

/-- Association-list model of `HashMap<String, A>`. -/
abbrev HMap (α : Type) := List (String × α)

/-- `ScopeContexts`: the ordered list of context handles of one scope. -/
abbrev ScopeContexts := List DynAny

/-- `Scope`: an optional mapping from scope name to its context handles. -/
abbrev Scope := Option (HMap ScopeContexts)

/-- `ScopeHook`: a function from an input scope to a mapping of scopes. -/
abbrev ScopeHook := Scope → HMap Scope

/-- `ScopeHookFactory`: a zero-argument constructor of scope hooks. -/
abbrev ScopeHookFactory := Unit → ScopeHook

/-- Map insert with overwrite at an existing key. -/
def hmapInsert {α : Type} : HMap α → String → α → HMap α
  | [], k, v => [(k, v)]
  | (k0, v0) :: rest, k, v =>
    if k0 = k then (k, v) :: rest else (k0, v0) :: hmapInsert rest k v

/-- Map lookup. -/
def hmapFind {α : Type} : HMap α → String → Option α
  | [], _ => none
  | (k0, v0) :: rest, k => if k0 = k then some v0 else hmapFind rest k

/-- The chain-and-collect merge of two maps: every entry of the second map is
inserted into the first, so entries of the second overwrite entries of the
first at colliding keys. -/
def hmapExtend {α : Type} (acc m : HMap α) : HMap α :=
  m.foldl (fun a kv => hmapInsert a kv.1 kv.2) acc

/-- `ContextProvider<T>`: the scoped provider handle with its tag. -/
structure ContextProvider (T : Type) where
  scope_name : String
  index : Nat

/-- `ContextConsumer<T>`: the scoped consumer handle. -/
structure ContextConsumer (T : Type) where
  scope_name : String
  index : Nat
  default_context : Option T
  root_name : String

/-- `ContextProvider::render`: injects the raw value into the ambient store
and renders the children unchanged; the result is the injected value paired
with the rendered output. -/
def ContextProvider.render {T : Type} (_self : ContextProvider T) (value : T)
    (_scope : Scope) (children : Element) : T × Element :=
  (value, children)

/-- `ContextConsumer::consume`: reads the ambient slot, falls back to the
stored default, or fails with the formatted diagnostic message naming the
consumer and the stored root name. -/
def ContextConsumer.consume {T : Type} (self : ContextConsumer T)
    (consumer_name : String) (_scope : Scope) (context : Option T) :
    Except String T :=
  match context with
  | some ctx => Except.ok ctx
  | none =>
    match self.default_context with
    | some d => Except.ok d
    | none =>
      Except.error ("`" ++ consumer_name ++ "` must be used within `"
        ++ self.root_name ++ "`")

/-- `ContextCreator`: the scope name and the registry's context vector.  The
shared `RefCell` is modelled by explicit state passing. -/
structure ContextCreator where
  scope_name : String
  contexts : List (Option DynAny)

/-- `ContextCreator::create`: allocates the next index (the current length of
the context vector), stores the erased default at that index, and returns
the tagged provider/consumer pair together with the updated registry.
`toDyn` models the erasure of the default into `Rc<dyn Any>`. -/
def ContextCreator.create {T : Type} (self : ContextCreator)
    (toDyn : T → DynAny) (root_name : String) (default_context : Option T) :
    (ContextProvider T × ContextConsumer T) × ContextCreator :=
  let index := self.contexts.length
  ((⟨self.scope_name, index⟩,
    ⟨self.scope_name, index, default_context, root_name⟩),
   ⟨self.scope_name, self.contexts ++ [default_context.map toDyn]⟩)

/-- Trace of successive `create` calls on one registry, taken at the erased
value type: each call supplies a root name and an optional default. -/
def runCreates : ContextCreator → List (String × Option DynAny) →
    List (ContextProvider DynAny × ContextConsumer DynAny) × ContextCreator
  | st, [] => ([], st)
  | st, c :: rest =>
    let r := ContextCreator.create st id c.1 c.2
    let r2 := runCreates r.2 rest
    (r.1 :: r2.1, r2.2)

/-- The scope hook produced by `create_context_scope`'s base factory.  The
registry contents read through the shared `RefCell` at hook-invocation time
are passed as the explicit `contexts` snapshot: each stored default is kept,
a missing default becomes the unit placeholder; the input scope (an empty
map when absent) is extended with this scope's entry, and the result is the
single-entry mapping under the prefixed scope key. -/
def base_scope_hook (scope_name : String) (contexts : List (Option DynAny)) :
    ScopeHook :=
  fun scope =>
    let contexts_vec : ScopeContexts :=
      contexts.map (fun ctx => ctx.getD DynAny.unitVal)
    let new_scope := hmapInsert (scope.getD []) scope_name contexts_vec
    hmapInsert [] ("__scope" ++ scope_name) (some new_scope)

/-- The base scope hook factory returned by `create_context_scope`. -/
def base_scope_hook_factory (scope_name : String)
    (contexts : List (Option DynAny)) : ScopeHookFactory :=
  fun _ => base_scope_hook scope_name contexts

/-- `compose_context_scopes`: a single factory is returned unchanged;
otherwise the composed factory builds every constituent hook, calls each of
them on the same input scope, folds the resulting mappings together with
later entries overwriting earlier ones, and reduces the merged map to the
single entry under the fixed base-scope key holding the first iterated
value, or to the empty mapping when the merged map is empty. -/
def compose_context_scopes (factories : List ScopeHookFactory) :
    ScopeHookFactory :=
  if factories.length = 1 then
    factories.headD (fun _ _ => [])
  else
    fun _ =>
      let hooks : List ScopeHook := factories.map (fun factory => factory ())
      fun scope =>
        let next_scopes :=
          hooks.foldl (fun acc hook => hmapExtend acc (hook scope)) []
        match next_scopes.head? with
        | some first_scope => [("__scope" ++ "baseScope", first_scope.2)]
        | none => []

/-- `create_context_scope`: builds the fresh registry and the base factory
for the scope name; with no dependencies the base factory is returned
unchanged, otherwise it is composed with all dependency factories.  The
`contexts` argument is the registry-contents snapshot read by the returned
factory at hook-invocation time. -/
def create_context_scope (scope_name : String)
    (contexts : List (Option DynAny)) (deps : List ScopeHookFactory) :
    ContextCreator × ScopeHookFactory :=
  let creator : ContextCreator := ⟨scope_name, []⟩
  let factory := base_scope_hook_factory scope_name contexts
  (creator,
   if deps.isEmpty then factory
   else compose_context_scopes (factory :: deps))

/-- The merged mapping described by the spec: every constituent hook is
invoked on the same input scope and the outputs are folded left to right,
later entries overwriting earlier ones at colliding keys. -/
def spec_merged_map (factories : List ScopeHookFactory) (scope : Scope) :
    HMap Scope :=
  (factories.map (fun factory => factory ())).foldl
    (fun acc hook => hmapExtend acc (hook scope)) []

/-- The reduction described by the spec: a single representative entry under
the fixed base-scope key, holding the value of whichever entry the merged
map's iteration yields first; empty when the merged map is empty. -/
def spec_reduce_base (m : HMap Scope) : HMap Scope :=
  match m.head? with
  | some first_scope => [("__scopebaseScope", first_scope.2)]
  | none => []

/-- A factory whose hook returns the empty mapping. -/
def empty_scope_hook_factory : ScopeHookFactory := fun _ => fun _ => []

/-- C1: for every value type with equality and cloning and every value `v`,
rendering the Provider returned by `create_context` with `v` and invoking
the returned consumer beneath it (so the ambient slot holds the provider's
injected value) returns a value equal to `v`. -/
theorem provider_consumer_round_trip (T : Type) (root : String)
    (dflt : Option T) (v : T) (children : Element) (consumer_name : String) :
    (create_context T root dflt).2 consumer_name
        (some ((create_context T root dflt).1 v children).provided)
      = Except.ok v := rfl

/-- C2: a consumer created by `create_context` with no default, and a
`ContextConsumer` created by `ContextCreator::create` with no default, when
invoked with no enclosing provider, fail with the message of the form
composed from the consumer name and the root name, and that message
contains both names. -/
theorem consumer_without_provider_panics (T : Type)
    (consumer_name root : String) (st : ContextCreator) (toDyn : T → DynAny)
    (scope : Scope) :
    (create_context T root none).2 consumer_name none
      = Except.error ("`" ++ consumer_name ++ "` must be used within `"
          ++ root ++ "`")
    ∧ ContextConsumer.consume ((ContextCreator.create st toDyn root none).1.2)
        consumer_name scope none
      = Except.error ("`" ++ consumer_name ++ "` must be used within `"
          ++ root ++ "`")
    ∧ (∃ pre post, "`" ++ consumer_name ++ "` must be used within `"
        ++ root ++ "`" = pre ++ consumer_name ++ post)
    ∧ (∃ pre post, "`" ++ consumer_name ++ "` must be used within `"
        ++ root ++ "`" = pre ++ root ++ post) := by
  refine ⟨rfl, rfl,
    ⟨"`", "` must be used within `" ++ root ++ "`", ?_⟩,
    ⟨"`" ++ consumer_name ++ "` must be used within `", "`", ?_⟩⟩ <;>
  simp [String.append_assoc]

/-- C3: a consumer created by `create_context` with a registered default,
and a `ContextConsumer` created by `ContextCreator::create` with a
registered default, when invoked with no enclosing provider, return exactly
that default on every invocation. -/
theorem consumer_default_fallback (T : Type) (d : T)
    (root consumer_name : String) (st : ContextCreator) (toDyn : T → DynAny)
    (scope : Scope) :
    (create_context T root (some d)).2 consumer_name none = Except.ok d
    ∧ ContextConsumer.consume
        ((ContextCreator.create st toDyn root (some d)).1.2)
        consumer_name scope none
      = Except.ok d := ⟨rfl, rfl⟩

/-- C9: `ContextProvider::render` and `ContextConsumer::consume` do not
depend on their scope argument nor on the stored scope name and index
fields: for any two scope arguments and any two tags, the injected value,
the rendered output and the consumed result coincide. -/
theorem render_consume_scope_independent (T : Type) (sn1 sn2 : String)
    (i1 i2 : Nat) (d : Option T) (r : String) (v : T) (s1 s2 : Scope)
    (children : Element) (consumer_name : String) (context : Option T) :
    ContextProvider.render (⟨sn1, i1⟩ : ContextProvider T) v s1 children
      = ContextProvider.render (⟨sn2, i2⟩ : ContextProvider T) v s2 children
    ∧ ContextConsumer.consume (⟨sn1, i1, d, r⟩ : ContextConsumer T)
        consumer_name s1 context
      = ContextConsumer.consume (⟨sn2, i2, d, r⟩ : ContextConsumer T)
        consumer_name s2 context := ⟨rfl, rfl⟩

/-- C10: `compose_context_scopes` on a single-element factory list returns
that factory itself; in particular the composition of a single base factory
keeps the factory's own prefixed scope key and is not rewrapped under the
base-scope key. -/
theorem compose_single_identity (f : ScopeHookFactory) (scope_name : String)
    (contexts : List (Option DynAny)) (scope : Scope) :
    compose_context_scopes [f] = f
    ∧ (compose_context_scopes [base_scope_hook_factory scope_name contexts]
          () scope).map (fun e => e.1)
      = ["__scope" ++ scope_name] := ⟨rfl, rfl⟩

/-- C8: re-rendering the basic Provider with a value that is value-equal to
the previously supplied one does not re-derive the memoized context value
(the hook state is unchanged, the injected value is the original one) and
signals no downstream recomputation. -/
theorem provider_memoization (T : Type) [DecidableEq T] (v1 v2 : T)
    (ch1 ch2 : Element) (h : v1 = v2) :
    (Provider.rerender (Provider.renderFirst v1 ch1).state v2 ch2).recomputed
      = false
    ∧ (Provider.rerender (Provider.renderFirst v1 ch1).state v2 ch2).state
      = (Provider.renderFirst v1 ch1).state
    ∧ (Provider.rerender (Provider.renderFirst v1 ch1).state v2 ch2).provided
      = v1 := by
  subst h
  exact ⟨by simp [Provider.rerender, Provider.renderFirst], rfl, rfl⟩

/-- Witness for C8 at a concrete input. -/
theorem provider_memoization_witness :
    (3 : Nat) = 3
    ∧ ((Provider.rerender (Provider.renderFirst (3 : Nat) ⟨0⟩).state 3
          ⟨1⟩).recomputed = false
       ∧ (Provider.rerender (Provider.renderFirst (3 : Nat) ⟨0⟩).state 3
            ⟨1⟩).state = (Provider.renderFirst (3 : Nat) ⟨0⟩).state
       ∧ (Provider.rerender (Provider.renderFirst (3 : Nat) ⟨0⟩).state 3
            ⟨1⟩).provided = 3) :=
  ⟨rfl, provider_memoization Nat 3 3 ⟨0⟩ ⟨1⟩ rfl⟩

/-- Final registry contents after a trace of create calls: the initial
contents followed by each call's erased default, in call order. -/
theorem runCreates_contexts (calls : List (String × Option DynAny)) :
    ∀ st : ContextCreator, (runCreates st calls).2
      = ⟨st.scope_name, st.contexts ++ calls.map (fun c => c.2)⟩ := by
  induction calls with
  | nil => intro st; simp [runCreates]
  | cons c rest ih =>
    intro st
    simp [runCreates, ContextCreator.create, ih, Option.map_id]

/-- Index assigned by the k-th create call of a trace: the registry length
at the start of the trace plus k, for both the provider and the consumer. -/
theorem runCreates_index (calls : List (String × Option DynAny)) :
    ∀ (st : ContextCreator) (k : Nat), k < calls.length →
      ((runCreates st calls).1.get? k).map (fun p => p.1.index)
        = some (st.contexts.length + k)
      ∧ ((runCreates st calls).1.get? k).map (fun p => p.2.index)
        = some (st.contexts.length + k) := by
  induction calls with
  | nil => intro st k hk; simp at hk
  | cons c rest ih =>
    intro st k hk
    match k with
    | 0 => simp [runCreates, ContextCreator.create]
    | Nat.succ k =>
      have hk2 : k < rest.length := by
        simpa [Nat.succ_lt_succ_iff] using hk
      have h := ih ⟨st.scope_name,
        st.contexts ++ [c.2.map id]⟩ k hk2
      have hlen : (st.contexts ++ [c.2.map id]).length + k
          = st.contexts.length + (k + 1) := by
        simp [List.length_append]; omega
      rw [hlen] at h
      simpa [runCreates, ContextCreator.create] using h

/-- C4: on one registry, the k-th create call (counting from zero) is
assigned index k on both the provider and the consumer, and stores that
call's default at position k of the registry's context vector; after the
trace the registry holds exactly one entry per call, in call order. -/
theorem create_assigns_indices_in_creation_order (scope_name : String)
    (calls : List (String × Option DynAny)) (k : Nat)
    (hk : k < calls.length) :
    (runCreates ⟨scope_name, []⟩ calls).2.contexts
      = calls.map (fun c => c.2)
    ∧ ((runCreates ⟨scope_name, []⟩ calls).1.get? k).map
        (fun p => p.1.index) = some k
    ∧ ((runCreates ⟨scope_name, []⟩ calls).1.get? k).map
        (fun p => p.2.index) = some k := by
  have h1 := runCreates_contexts calls ⟨scope_name, []⟩
  have h2 := runCreates_index calls ⟨scope_name, []⟩ k hk
  refine ⟨?_, ?_, ?_⟩
  · rw [h1]; simp
  · simpa using h2.1
  · simpa using h2.2

/-- Witness for C4 at a concrete two-call trace. -/
theorem create_assigns_indices_witness :
    1 < ([("r1", some (DynAny.natVal 1)), ("r2", none)]
          : List (String × Option DynAny)).length
    ∧ ((runCreates ⟨"S", []⟩
          [("r1", some (DynAny.natVal 1)), ("r2", none)]).2.contexts
        = ([("r1", some (DynAny.natVal 1)), ("r2", none)]
            : List (String × Option DynAny)).map (fun c => c.2)
       ∧ ((runCreates ⟨"S", []⟩
            [("r1", some (DynAny.natVal 1)), ("r2", none)]).1.get? 1).map
            (fun p => p.1.index) = some 1
       ∧ ((runCreates ⟨"S", []⟩
            [("r1", some (DynAny.natVal 1)), ("r2", none)]).1.get? 1).map
            (fun p => p.2.index) = some 1) :=
  ⟨by decide,
   create_assigns_indices_in_creation_order "S"
     [("r1", some (DynAny.natVal 1)), ("r2", none)] 1 (by decide)⟩

/-- Lookup after insert at the inserted key. -/
theorem hmapFind_insert_self {α : Type} (m : HMap α) (k : String) (v : α) :
    hmapFind (hmapInsert m k v) k = some v := by
  induction m with
  | nil => simp [hmapInsert, hmapFind]
  | cons hd tl ih =>
    obtain ⟨k0, v0⟩ := hd
    by_cases h : k0 = k
    · simp [hmapInsert, hmapFind, h]
    · simp [hmapInsert, hmapFind, h, ih]

/-- Lookup after insert at a different key is unchanged. -/
theorem hmapFind_insert_ne {α : Type} (m : HMap α) (k q : String) (v : α)
    (h : q ≠ k) : hmapFind (hmapInsert m k v) q = hmapFind m q := by
  have h2 : k ≠ q := Ne.symm h
  induction m with
  | nil => simp [hmapInsert, hmapFind, h2]
  | cons hd tl ih =>
    obtain ⟨k0, v0⟩ := hd
    by_cases h0 : k0 = k
    · subst h0
      simp [hmapInsert, hmapFind, h2]
    · by_cases hq : k0 = q
      · subst hq
        simp [hmapInsert, hmapFind, h0, h]
      · simp [hmapInsert, hmapFind, h0, hq, ih]

/-- C5 (amended): the base scope hook returns the single-entry mapping whose
key is the prefixed scope name and whose value extends the input scope with
the registered-handles entry; entries of the input scope at keys other than
the scope name are preserved unchanged, while the entry at the scope name
itself is set (overwriting any previous entry at that key) to the list of
registered handles, a missing default becoming the unit placeholder. -/
theorem base_hook_single_entry (S : String) (ctxs : List (Option DynAny))
    (scope : Scope) :
    base_scope_hook S ctxs scope
      = [("__scope" ++ S,
          some (hmapInsert (scope.getD []) S
            (ctxs.map (fun c => c.getD DynAny.unitVal))))]
    ∧ (∀ k, k ≠ S →
        hmapFind (hmapInsert (scope.getD []) S
            (ctxs.map (fun c => c.getD DynAny.unitVal))) k
          = hmapFind (scope.getD []) k)
    ∧ hmapFind (hmapInsert (scope.getD []) S
          (ctxs.map (fun c => c.getD DynAny.unitVal))) S
      = some (ctxs.map (fun c => c.getD DynAny.unitVal)) := by
  refine ⟨rfl, ?_, hmapFind_insert_self _ _ _⟩
  intro k hk
  exact hmapFind_insert_ne _ _ _ _ hk

/-- C5 counterexample: when the input scope already holds an entry at the
scope name itself, that entry is overwritten rather than preserved, so the
output does not contain all entries of the input scope unchanged. -/
theorem base_hook_counterexample :
    base_scope_hook "A" [some (DynAny.natVal 7)]
        (some [("A", [DynAny.unitVal])])
      = [("__scopeA", some [("A", [DynAny.natVal 7])])]
    ∧ ¬ (hmapFind ([("A", [DynAny.natVal 7])] : HMap ScopeContexts) "A"
          = hmapFind ([("A", [DynAny.unitVal])] : HMap ScopeContexts) "A") :=
  by decide

/-- Witness for the amended C5 at a concrete input. -/
theorem base_hook_single_entry_witness :
    ("B" : String) ≠ "A"
    ∧ hmapFind (hmapInsert ((some [("B", [DynAny.natVal 3])] : Scope).getD [])
          "A" (([some (DynAny.natVal 7)] : List (Option DynAny)).map
            (fun c => c.getD DynAny.unitVal))) "B"
      = hmapFind ((some [("B", [DynAny.natVal 3])] : Scope).getD []) "B" :=
  ⟨by decide,
   (base_hook_single_entry "A" [some (DynAny.natVal 7)]
      (some [("B", [DynAny.natVal 3])])).2.1 "B" (by decide)⟩

/-- C6 (amended): for two or more factories the composed hook calls every
constituent hook on the same input scope, folds the outputs left to right
with later entries overwriting earlier ones, and returns the single entry
under the fixed base-scope key holding the first iterated value of the
merged map when that map is nonempty, and the empty mapping otherwise. -/
theorem compose_reduces_merged_map (factories : List ScopeHookFactory)
    (scope : Scope) (h : 2 ≤ factories.length) :
    compose_context_scopes factories () scope
      = spec_reduce_base (spec_merged_map factories scope) := by
  have hne : factories.length ≠ 1 := by omega
  unfold compose_context_scopes spec_reduce_base spec_merged_map
  rw [if_neg hne]
  rfl

/-- C6 counterexample: composing two factories whose hooks both return the
empty mapping yields the empty mapping, not a mapping containing the
base-scope key. -/
theorem compose_counterexample_empty :
    compose_context_scopes
        [empty_scope_hook_factory, empty_scope_hook_factory] () none = []
    ∧ hmapFind (compose_context_scopes
        [empty_scope_hook_factory, empty_scope_hook_factory] () none)
        "__scopebaseScope" = none := ⟨rfl, rfl⟩

/-- Witness for the amended C6 at two concrete base factories. -/
theorem compose_reduces_merged_map_witness :
    2 ≤ ([base_scope_hook_factory "X" [], base_scope_hook_factory "Y" []]
          : List ScopeHookFactory).length
    ∧ compose_context_scopes
        [base_scope_hook_factory "X" [], base_scope_hook_factory "Y" []]
        () none
      = spec_reduce_base (spec_merged_map
          [base_scope_hook_factory "X" [], base_scope_hook_factory "Y" []]
          none) :=
  ⟨by decide,
   compose_reduces_merged_map
     [base_scope_hook_factory "X" [], base_scope_hook_factory "Y" []]
     none (by decide)⟩

/-- C7 counterexample: composing the base factories of the distinct scope
names A and B over the absent scope produces a base-scope value holding
only A's entry; the key B is absent from it, so B's registered context list
is lost. -/
theorem compose_two_scopes_counterexample :
    compose_context_scopes
        [base_scope_hook_factory "A" [some (DynAny.natVal 1)],
         base_scope_hook_factory "B" [some (DynAny.natVal 2)]] () none
      = [("__scopebaseScope", some [("A", [DynAny.natVal 1])])]
    ∧ hmapFind ([("A", [DynAny.natVal 1])] : HMap ScopeContexts) "B"
      = none := ⟨rfl, rfl⟩

/-- C7 (amended): composing the base factories of the distinct scope names
A and B over the absent input scope yields a result whose base-scope value
holds exactly A's registered context list (the first entry the merged map's
iteration yields); B's registered context list does not appear in it. -/
theorem compose_two_scopes_keeps_first (ctxA ctxB : List (Option DynAny)) :
    compose_context_scopes
        [base_scope_hook_factory "A" ctxA, base_scope_hook_factory "B" ctxB]
        () none
      = [("__scopebaseScope",
          some [("A", ctxA.map (fun c => c.getD DynAny.unitVal))])]
    ∧ hmapFind ([("A", ctxA.map (fun c => c.getD DynAny.unitVal))]
        : HMap ScopeContexts) "B" = none := ⟨rfl, rfl⟩

end DioxusPrimitives
